import Mathlib

/-!
Shallow embedding of the Connect-PRO backend's social-graph and notification
core (src/server/controllers/messageController.js,
src/server/controllers/notificationController.js,
src/server/controllers/postController.js, src/server/models/Notification.js,
src/server/server.js), together with theorems settling the specification
claims about it.

User ids, socket ids, notification ids and timestamps are modelled as `Nat`.
MongoDB documents become records, collections become lists, and each Express
controller becomes a pure function from the pre-state to an HTTP-status-like
result plus the post-state and the realtime emissions it performs.
-/

namespace ConnectPro

/-- Status values of the `connections` sub-schema enum in
`src/server/models/User.js` ('pending' | 'accepted'). -/
inductive ConnStatus where
  | pending
  | accepted
deriving DecidableEq, Repr

/-- One element of a user's `connections` array:
`{ user: ObjectId, status }` (the `date` field plays no role in the claims). -/
structure ConnEntry where
  user : Nat
  status : ConnStatus
deriving DecidableEq, Repr

/-- The slice of a User document the social-graph controllers touch. -/
structure UserRec where
  id : Nat
  name : String
  connections : List ConnEntry
deriving DecidableEq, Repr

/-- The users collection. -/
abbrev DB := List UserRec

/-- `User.findById`: first document with the given id, `none` when absent. -/
def findUser (db : DB) (uid : Nat) : Option UserRec :=
  db.find? (fun u => u.id == uid)

/-- `doc.save()` on a fetched user document: replace the stored document
with the mutated in-memory copy. -/
def saveUser (db : DB) (u : UserRec) : DB :=
  db.map (fun v => if v.id == u.id then u else v)

/-- HTTP outcomes the controllers produce. `badRequest` is status 400,
`notFound` 404, `forbidden` 403, `serverError` the catch-all 500. -/
inductive ApiStatus where
  | ok
  | badRequest
  | notFound
  | forbidden
  | serverError
deriving DecidableEq, Repr

/-- A Notification document (src/server/models/Notification.js).
`createdAt` comes from `timestamps: true`; `nid` is `_id`. -/
structure Notif where
  recipient : Nat
  sender : Nat
  ntype : String
  content : String
  referenceId : Option Nat
  onModel : Option String
  isRead : Bool
  readAt : Option Nat
  createdAt : Nat
  nid : Nat
deriving DecidableEq, Repr

/-- The notifications collection. -/
abbrev Ledger := List Notif

/-- The `type` enum of NotificationSchema (src/server/models/Notification.js
lines 15-29). -/
def notifTypeEnum : List String :=
  ["connection-request", "connection-accepted", "post-like", "post-comment",
   "post-share", "job-application", "job-application-update", "message",
   "mention"]

/-- The `onModel` enum of NotificationSchema (line 40). -/
def onModelEnum : List String :=
  ["Post", "Job", "User", "Message"]

/-- Mongoose enum validation applied by `Notification.create`:
`type` must be in its enum, and `onModel`, when present, in its enum. -/
def notifSchemaValid (t : String) (om : Option String) : Bool :=
  notifTypeEnum.contains t &&
    (match om with
     | none => true
     | some m => onModelEnum.contains m)

/-- `Notification.create`: validates the document against the schema enums,
then appends it to the collection; a validation failure rejects the promise. -/
def notifCreate (led : Ledger) (n : Notif) : Except String Ledger :=
  if notifSchemaValid n.ntype n.onModel then Except.ok (led ++ [n])
  else Except.error "ValidationError"

/-- One `io.to(room).emit('receiveNotification', {type, message, sender})`
call: the room targeted and the condensed payload. -/
structure Emit where
  room : Nat
  etype : String
  message : String
  sender : Nat
deriving DecidableEq, Repr

/-- Result of a social-graph controller call: HTTP status, users collection,
notifications collection, and the realtime emissions performed. -/
structure OpResult where
  status : ApiStatus
  db : DB
  ledger : Ledger
  emits : List Emit
deriving Repr

/-- `sendConnectionRequest` (messageController.js lines 742-804).
`reqId` is `req.user.id`, `targetId` is `req.params.id`; `now`/`nid` stand
for the created notification's timestamp and `_id`.  Order of checks follows
the source: self-connect 400, missing target 404, a missing requester
document makes `user.connections` throw (caught as 500), an existing entry
on the requester's side 400; then a `pending` entry is unshifted onto both
users, both are saved, one notification is created and one emit issued. -/
def sendConnectionRequest (db : DB) (led : Ledger) (reqId targetId now nid : Nat) :
    OpResult :=
  if reqId == targetId then ⟨ApiStatus.badRequest, db, led, []⟩
  else
    match findUser db targetId with
    | none => ⟨ApiStatus.notFound, db, led, []⟩
    | some target =>
      match findUser db reqId with
      | none => ⟨ApiStatus.serverError, db, led, []⟩
      | some user =>
        if (user.connections.find? (fun c => c.user == targetId)).isSome then
          ⟨ApiStatus.badRequest, db, led, []⟩
        else
          let user' := { user with
            connections := ⟨targetId, ConnStatus.pending⟩ :: user.connections }
          let target' := { target with
            connections := ⟨reqId, ConnStatus.pending⟩ :: target.connections }
          let db' := saveUser (saveUser db user') target'
          let msg := user.name ++ " sent you a connection request"
          let n : Notif :=
            ⟨targetId, reqId, "connection-request", msg, some reqId,
             some "User", false, none, now, nid⟩
          match notifCreate led n with
          | Except.error _ => ⟨ApiStatus.serverError, db', led, []⟩
          | Except.ok led' =>
            ⟨ApiStatus.ok, db', led', [⟨targetId, "connection-request", msg, reqId⟩]⟩

/-- Mutation performed by `userConnection.status = 'accepted'` after
`connections.find(...)`: only the first entry for the peer is updated. -/
def setStatusFirst : List ConnEntry → Nat → ConnStatus → List ConnEntry
  | [], _, _ => []
  | e :: rest, peer, s =>
    if e.user == peer then { e with status := s } :: rest
    else e :: setStatusFirst rest peer s

/-- `acceptConnection` (messageController.js lines 809-862).
`userId` is the accepter (`req.user.id`), `targetId` the original requester
(`req.params.id`).  The source checks only that an entry for the peer exists
on each side (no check that its status is `pending`); on success both first
matching entries are set to `accepted`, both documents saved, one
`connection-accepted` notification created for the requester and one emit
issued to the requester's room. -/
def acceptConnection (db : DB) (led : Ledger) (userId targetId now nid : Nat) :
    OpResult :=
  match findUser db targetId with
  | none => ⟨ApiStatus.notFound, db, led, []⟩
  | some target =>
    match findUser db userId with
    | none => ⟨ApiStatus.serverError, db, led, []⟩
    | some user =>
      if (user.connections.find? (fun c => c.user == targetId)).isSome &&
         (target.connections.find? (fun c => c.user == userId)).isSome then
        let user' := { user with
          connections := setStatusFirst user.connections targetId ConnStatus.accepted }
        let target' := { target with
          connections := setStatusFirst target.connections userId ConnStatus.accepted }
        let db' := saveUser (saveUser db user') target'
        let msg := user.name ++ " accepted your connection request"
        let n : Notif :=
          ⟨targetId, userId, "connection-accepted", msg, some userId,
           some "User", false, none, now, nid⟩
        match notifCreate led n with
        | Except.error _ => ⟨ApiStatus.serverError, db', led, []⟩
        | Except.ok led' =>
          ⟨ApiStatus.ok, db', led', [⟨targetId, "connection-accepted", msg, userId⟩]⟩
      else ⟨ApiStatus.badRequest, db, led, []⟩

/-- `removeConnection` (messageController.js lines 867-896): both sides'
entries for the peer are filtered out unconditionally, both documents saved,
no notification and no emit. -/
def removeConnection (db : DB) (led : Ledger) (userId targetId : Nat) : OpResult :=
  match findUser db targetId with
  | none => ⟨ApiStatus.notFound, db, led, []⟩
  | some target =>
    match findUser db userId with
    | none => ⟨ApiStatus.serverError, db, led, []⟩
    | some user =>
      let user' := { user with
        connections := user.connections.filter (fun c => c.user != targetId) }
      let target' := { target with
        connections := target.connections.filter (fun c => c.user != userId) }
      ⟨ApiStatus.ok, saveUser (saveUser db user') target', led, []⟩

/-- `getUserConnections` (messageController.js lines 713-737): 404 when the
user is absent, otherwise the entries whose status is `accepted`. -/
def getUserConnections (db : DB) (uid : Nat) : Option (List ConnEntry) :=
  (findUser db uid).map
    (fun u => u.connections.filter (fun c => c.status == ConnStatus.accepted))

/-- `getConnectionRequests` (messageController.js lines 901-925): the
entries of the user's `connections` array whose status is `pending` — the
source applies no filter on who initiated the request. -/
def getConnectionRequests (db : DB) (uid : Nat) : Option (List ConnEntry) :=
  (findUser db uid).map
    (fun u => u.connections.filter (fun c => c.status == ConnStatus.pending))

/-! ### Session registry and rooms (src/server/server.js lines 69-150) -/

/-- `connectedUsers`: a `Map` from user id to socket id
(`connectedUsers.set(decoded.id, socket.id)`), so at most one socket id is
retained per user. -/
abbrev Registry := List (Nat × Nat)

/-- `Map.set` semantics: overwrite the binding when the key is present,
append it otherwise. -/
def mapSet (r : Registry) (k v : Nat) : Registry :=
  if (r.find? (fun p => p.1 == k)).isSome then
    r.map (fun p => if p.1 == k then (k, v) else p)
  else r ++ [(k, v)]

/-- The `socket.on('authenticate')` handler with a valid token:
`connectedUsers.set(decoded.id, socket.id)`. -/
def authenticate (r : Registry) (userId socketId : Nat) : Registry :=
  mapSet r userId socketId

/-- Room membership created by `socket.join(...)`: pairs
`(socketId, room)`.  The only `join` in server.js is the
`joinConversation` handler; the authenticate handler joins no room. -/
abbrev Rooms := List (Nat × Nat)

/-- The sockets that an `io.to(room).emit(...)` reaches: among the live
sockets, those that joined the room, plus the socket whose own id names the
room (socket.io's automatic per-socket room). -/
def roomSockets (rooms : Rooms) (liveSockets : List Nat) (room : Nat) : List Nat :=
  liveSockets.filter (fun s => s == room || rooms.contains (s, room))

/-! ### likePost (src/server/controllers/postController.js lines 115-163) -/

/-- The slice of a Post document `likePost` touches: `likes` is the list of
liker user ids, most recent first (`unshift`). -/
structure Post where
  pid : Nat
  user : Nat
  likes : List Nat
deriving DecidableEq, Repr

/-- Result of `likePost`: HTTP status, posts collection, notifications
collection, and realtime emissions. -/
structure LikeResult where
  status : ApiStatus
  posts : List Post
  ledger : Ledger
  emits : List Emit
deriving Repr

/-- `likePost` (postController.js lines 115-163).  `notifWriteOk` models
whether the awaited `Notification.create` I/O succeeds; when it rejects, the
whole handler's try/catch answers 500 — but only after `post.save()` has
already committed the like.  Checks in source order: missing post 404,
already-liked 400; then the like is unshifted and saved; a notification and
an emit to the owner's room happen only when the owner is not the liker. -/
def likePost (db : DB) (posts : List Post) (led : Ledger)
    (userId postId now nid : Nat) (notifWriteOk : Bool) : LikeResult :=
  match posts.find? (fun p => p.pid == postId) with
  | none => ⟨ApiStatus.notFound, posts, led, []⟩
  | some post =>
    if post.likes.contains userId then ⟨ApiStatus.badRequest, posts, led, []⟩
    else
      let post' := { post with likes := userId :: post.likes }
      let posts' := posts.map (fun p => if p.pid == postId then post' else p)
      if post.user == userId then ⟨ApiStatus.ok, posts', led, []⟩
      else
        match findUser db userId with
        | none => ⟨ApiStatus.serverError, posts', led, []⟩
        | some user =>
          if notifWriteOk then
            let msg := user.name ++ " liked your post"
            let n : Notif :=
              ⟨post.user, userId, "post-like", msg, some postId, some "Post",
               false, none, now, nid⟩
            match notifCreate led n with
            | Except.error _ => ⟨ApiStatus.serverError, posts', led, []⟩
            | Except.ok led' =>
              ⟨ApiStatus.ok, posts', led', [⟨post.user, "post-like", msg, userId⟩]⟩
          else ⟨ApiStatus.serverError, posts', led, []⟩

/-! ### Notification controller
(src/server/controllers/notificationController.js) -/

/-- `findOneAndUpdate({_id, recipient}, {isRead: true})`: mark the first
matching document read.  Being a query-level update, it runs no
document-save middleware, so `readAt` is untouched. -/
def markFirstRead : Ledger → Nat → Nat → Ledger
  | [], _, _ => []
  | n :: rest, notifId, userId =>
    if n.nid == notifId && n.recipient == userId then
      { n with isRead := true } :: rest
    else n :: markFirstRead rest notifId userId

/-- `markAsRead` (notificationController.js lines 40-68): the filter requires
both `_id` and `recipient` to match; no match answers 404 and changes
nothing. -/
def markAsRead (led : Ledger) (notifId userId : Nat) : ApiStatus × Ledger :=
  if (led.find? (fun n => n.nid == notifId && n.recipient == userId)).isSome then
    (ApiStatus.ok, markFirstRead led notifId userId)
  else (ApiStatus.notFound, led)

/-- `markAllAsRead` (lines 73-91): `updateMany({recipient, isRead: false},
{isRead: true})` — again a query-level update, bypassing save middleware. -/
def markAllAsRead (led : Ledger) (userId : Nat) : Ledger :=
  led.map (fun n =>
    if n.recipient == userId && n.isRead == false then { n with isRead := true }
    else n)

/-- The `NotificationSchema.pre('save')` hook (Notification.js lines 66-72):
on a document save where `isRead` was modified and is true, set `readAt`. -/
def preSaveHook (n : Notif) (isReadModified : Bool) (now : Nat) : Notif :=
  if isReadModified && n.isRead then { n with readAt := some now } else n

/-- The documents `getNotifications` (lines 6-35) selects:
`Notification.find({recipient})`. -/
def ledgerFor (led : Ledger) (uid : Nat) : Ledger :=
  led.filter (fun n => n.recipient == uid)

/-- What `.sort({ createdAt: -1 })` with no further sort key guarantees about
the returned order: the result lists exactly the selected documents, in some
order that is non-increasing in `createdAt`.  No secondary key is given in
the source, so any such order is a possible response. -/
def queryResultValid (led : Ledger) (uid : Nat) (res : List Notif) : Prop :=
  res.Perm (ledgerFor led uid) ∧
    res.Sorted (fun a b => b.createdAt ≤ a.createdAt)

/-! ### Group-conversation notifications
(src/server/controllers/messageController.js lines 185-198) -/

/-- The notification document `createGroupConversation` builds for each
participant: `type: 'group-invite'`, `onModel: 'Conversation'`. -/
def createGroupNotif (adminId participantId convId : Nat)
    (adminName gname : String) : Notif :=
  ⟨participantId, adminId, "group-invite",
   adminName ++ " added you to the group \"" ++ gname ++ "\"",
   some convId, some "Conversation", false, none, 0, 0⟩

/-- The notification `type` enumeration as the specification states it
(spec §3, Notification).  Kept separate from `notifTypeEnum`, which is the
schema's enum, so the two can be compared. -/
def specNotifTypeEnum : List String :=
  ["connection-request", "connection-accepted", "post-like", "post-comment",
   "post-share", "job-application", "job-application-update", "message",
   "group-invite", "group-update", "group-admin", "group-remove",
   "group-leave", "mention"]

/-- The `referenceKind` values as the specification states them (spec §3). -/
def specReferenceKinds : List String :=
  ["Post", "Job", "User", "Conversation"]

/-! ### The connection invariant (spec §3, claim C2) -/

/-- Decide a proposition stated over an optional value, `False` when absent. -/
instance optionElimFalseDecidable {α : Type _} (p : α → Prop)
    [inst : ∀ a, Decidable (p a)] : (o : Option α) → Decidable (o.elim False p)
  | none => isFalse (fun h => h)
  | some a => inst a

/-- Entry `e` held by user `ownerId` is mirrored: the peer `e.user` exists and
holds an entry back to `ownerId` with the same status. -/
def mirrorAt (db : DB) (ownerId : Nat) (e : ConnEntry) : Prop :=
  (findUser db e.user).elim False
    (fun v => ∃ e' ∈ v.connections, e'.user = ownerId ∧ e'.status = e.status)

instance mirrorAtDecidable (db : DB) (ownerId : Nat) (e : ConnEntry) :
    Decidable (mirrorAt db ownerId e) :=
  optionElimFalseDecidable _ (findUser db e.user)

/-- Every connection entry of every user has a mirrored entry with the same
status on the peer. -/
def mirrorProp (db : DB) : Prop :=
  ∀ u ∈ db, ∀ e ∈ u.connections, mirrorAt db u.id e

/-- No user holds a connection entry pointing at itself. -/
def noSelf (db : DB) : Prop :=
  ∀ u ∈ db, ∀ e ∈ u.connections, e.user ≠ u.id

/-- No user holds two connection entries for the same peer. -/
def nodupPeers (db : DB) : Prop :=
  ∀ u ∈ db, (u.connections.map ConnEntry.user).Nodup

/-- The connection invariant of claim C2: mirrored entries with equal status,
no self-connections, at most one entry per peer. -/
def connInvariant (db : DB) : Prop :=
  mirrorProp db ∧ noSelf db ∧ nodupPeers db

instance mirrorPropDecidable (db : DB) : Decidable (mirrorProp db) :=
  inferInstanceAs (Decidable (∀ u ∈ db, ∀ e ∈ u.connections, mirrorAt db u.id e))

instance noSelfDecidable (db : DB) : Decidable (noSelf db) :=
  inferInstanceAs (Decidable (∀ u ∈ db, ∀ e ∈ u.connections, e.user ≠ u.id))

instance nodupPeersDecidable (db : DB) : Decidable (nodupPeers db) :=
  inferInstanceAs (Decidable (∀ u ∈ db, (u.connections.map ConnEntry.user).Nodup))

instance connInvariantDecidable (db : DB) : Decidable (connInvariant db) :=
  inferInstanceAs (Decidable (mirrorProp db ∧ noSelf db ∧ nodupPeers db))

/-! ### Concrete states used by counterexamples and witnesses -/

/-- Two unconnected users. -/
def db0 : DB := [⟨1, "alice", []⟩, ⟨2, "bob", []⟩]

/-- Users 1 and 2 with an accepted connection on both sides. -/
def dbAcc : DB :=
  [⟨1, "alice", [⟨2, ConnStatus.accepted⟩]⟩,
   ⟨2, "bob", [⟨1, ConnStatus.accepted⟩]⟩]

/-- Carol (10) and Dave (20); Carol owns post 5 with no likes. -/
def dbLike : DB := [⟨10, "carol", []⟩, ⟨20, "dave", []⟩]

/-- Carol's post. -/
def posts0 : List Post := [⟨5, 10, []⟩]

/-- One unread notification for user 10, id 1. -/
def led0 : Ledger := [⟨10, 3, "message", "hi", none, none, false, none, 0, 1⟩]

/-- A notification for user 10 created at time 5, id 1. -/
def nTieA : Notif := ⟨10, 1, "message", "m", none, none, false, none, 5, 1⟩

/-- A notification for user 10 created at the same time 5, id 2. -/
def nTieB : Notif := ⟨10, 1, "message", "m", none, none, false, none, 5, 2⟩

/-- Two notifications for user 10 with the same `createdAt` but different
ids. -/
def ledTie : Ledger := [nTieA, nTieB]

/-- Two notifications for user 10 with distinct `createdAt` values. -/
def ledDistinct : Ledger :=
  [⟨10, 1, "message", "m", none, none, false, none, 5, 1⟩,
   ⟨10, 1, "message", "m", none, none, false, none, 7, 2⟩]

/-- The newest-first presentation of `ledDistinct` for user 10. -/
def resDistinct : List Notif :=
  [⟨10, 1, "message", "m", none, none, false, none, 7, 2⟩,
   ⟨10, 1, "message", "m", none, none, false, none, 5, 1⟩]

instance queryResultValidDecidable (led : Ledger) (uid : Nat) (res : List Notif) :
    Decidable (queryResultValid led uid res) :=
  inferInstanceAs (Decidable (res.Perm (ledgerFor led uid) ∧
    res.Sorted (fun a b : Notif => b.createdAt ≤ a.createdAt)))

/-! ### Toolkit: characterizing the two-sided document updates -/

/-- `u` with every connection entry for `peer` removed. -/
def filtU (u : UserRec) (peer : Nat) : UserRec :=
  { u with connections := u.connections.filter (fun c => c.user != peer) }

/-- `u` with the first connection entry for `peer` set to status `s`. -/
def setU (u : UserRec) (peer : Nat) (s : ConnStatus) : UserRec :=
  { u with connections := setStatusFirst u.connections peer s }

/-- `u` with a fresh entry for `peer` with status `s` unshifted. -/
def pushU (u : UserRec) (peer : Nat) (s : ConnStatus) : UserRec :=
  { u with connections := ⟨peer, s⟩ :: u.connections }

/-- The per-document effect of saving `x` and then `y`. -/
def replF (x y : UserRec) (v : UserRec) : UserRec :=
  if v.id == y.id then y else if v.id == x.id then x else v

/-- Saving the mutated copy `x` and then the mutated copy `y` rewrites every
document according to `replF x y`. -/
theorem replF_eval_y {x y v : UserRec} (h : v.id = y.id) : replF x y v = y := by
  unfold replF
  rw [if_pos (by simpa using h)]

theorem replF_eval_x {x y v : UserRec} (h1 : v.id ≠ y.id) (h2 : v.id = x.id) :
    replF x y v = x := by
  unfold replF
  rw [if_neg (by simpa using h1), if_pos (by simpa using h2)]

theorem replF_eval_other {x y v : UserRec} (h1 : v.id ≠ y.id) (h2 : v.id ≠ x.id) :
    replF x y v = v := by
  unfold replF
  rw [if_neg (by simpa using h1), if_neg (by simpa using h2)]

theorem saveUser_saveUser (db : DB) (x y : UserRec) :
    saveUser (saveUser db x) y = db.map (replF x y) := by
  unfold saveUser
  rw [List.map_map]
  apply List.map_congr_left
  intro v _
  show (if (if v.id == x.id then x else v).id == y.id then y
        else if v.id == x.id then x else v) = replF x y v
  by_cases h1 : v.id = x.id
  · have e1 : (if v.id == x.id then x else v) = x := if_pos (by simpa using h1)
    rw [e1]
    by_cases h2 : x.id = y.id
    · rw [if_pos (by simpa using h2), replF_eval_y (by omega)]
    · rw [if_neg (by simpa using h2), replF_eval_x (by omega) h1]
  · have e1 : (if v.id == x.id then x else v) = v := if_neg (by simpa using h1)
    rw [e1]
    by_cases h3 : v.id = y.id
    · rw [if_pos (by simpa using h3), replF_eval_y h3]
    · rw [if_neg (by simpa using h3), replF_eval_other h3 h1]

theorem replF_id (x y v : UserRec) : (replF x y v).id = v.id := by
  by_cases h1 : v.id = y.id
  · rw [replF_eval_y h1, h1]
  · by_cases h2 : v.id = x.id
    · rw [replF_eval_x h1 h2, h2]
    · rw [replF_eval_other h1 h2]

theorem findUser_some_id {db : DB} {uid : Nat} {u : UserRec}
    (h : findUser db uid = some u) : u.id = uid := by
  have := List.find?_some h
  simpa using this

theorem findUser_some_mem {db : DB} {uid : Nat} {u : UserRec}
    (h : findUser db uid = some u) : u ∈ db :=
  List.mem_of_find?_eq_some h

theorem findUser_map (db : DB) (f : UserRec → UserRec)
    (hf : ∀ v, (f v).id = v.id) (uid : Nat) :
    findUser (db.map f) uid = (findUser db uid).map f := by
  unfold findUser
  rw [List.find?_map]
  have : ((fun u : UserRec => u.id == uid) ∘ f) = fun v : UserRec => v.id == uid := by
    funext v
    simp [Function.comp, hf]
  rw [this]

theorem findUser_replF (db : DB) (x y : UserRec) (uid : Nat) :
    findUser (db.map (replF x y)) uid = (findUser db uid).map (replF x y) :=
  findUser_map db (replF x y) (replF_id x y) uid

/-- `removeConnection` on two existing users: status ok, both documents
rewritten with the peer filtered out, ledger and emissions untouched. -/
theorem removeConnection_ok {db : DB} {led : Ledger} {a b : Nat} {ua ub : UserRec}
    (ha : findUser db a = some ua) (hb : findUser db b = some ub) :
    removeConnection db led a b =
      ⟨ApiStatus.ok, (db.map (replF (filtU ua b) (filtU ub a))), led, []⟩ := by
  unfold removeConnection
  rw [hb, ha]
  simp only [filtU]
  rw [saveUser_saveUser]

theorem filtU_idem (u : UserRec) (p : Nat) : filtU (filtU u p) p = filtU u p := by
  unfold filtU
  simp [List.filter_filter]

theorem mem_filtU_ne {u : UserRec} {p : Nat} {e : ConnEntry}
    (h : e ∈ (filtU u p).connections) : e.user ≠ p := by
  have := (List.mem_filter.mp h).2
  simpa using this

theorem markFirstRead_find? (l : Ledger) (i u : Nat) :
    (markFirstRead l i u).find? (fun n => n.nid == i && n.recipient == u) =
      (l.find? (fun n => n.nid == i && n.recipient == u)).map
        (fun n => { n with isRead := true }) := by
  induction l with
  | nil => rfl
  | cons n rest ih =>
    by_cases h : (n.nid == i && n.recipient == u) = true
    · simp [markFirstRead, List.find?, h]
    · simp only [markFirstRead, if_neg h, List.find?, h, ih]

theorem markFirstRead_idem (l : Ledger) (i u : Nat) :
    markFirstRead (markFirstRead l i u) i u = markFirstRead l i u := by
  induction l with
  | nil => rfl
  | cons n rest ih =>
    by_cases h : (n.nid == i && n.recipient == u) = true
    · simp [markFirstRead, h]
    · simp only [markFirstRead, if_neg h, ih]

theorem markFirstRead_map_readAt (l : Ledger) (i u : Nat) :
    (markFirstRead l i u).map Notif.readAt = l.map Notif.readAt := by
  induction l with
  | nil => rfl
  | cons n rest ih =>
    by_cases h : (n.nid == i && n.recipient == u) = true
    · simp [markFirstRead, h]
    · simp only [markFirstRead, if_neg h, List.map, ih]

theorem markFirstRead_all_read (l : Ledger) (i u : Nat)
    (hnd : (l.map Notif.nid).Nodup) :
    ∀ n ∈ markFirstRead l i u, n.nid = i → n.recipient = u → n.isRead = true := by
  induction l with
  | nil => intro n hn; simp [markFirstRead] at hn
  | cons m rest ih =>
    rw [List.map_cons, List.nodup_cons] at hnd
    intro n hn hni hnr
    by_cases h : (m.nid == i && m.recipient == u) = true
    · rw [markFirstRead, if_pos h] at hn
      rcases List.mem_cons.mp hn with rfl | hn'
      · rfl
      · exfalso
        have hmi : m.nid = i := by
          simp only [Bool.and_eq_true, beq_iff_eq] at h
          exact h.1
        exact hnd.1 (List.mem_map.mpr ⟨n, hn', hni.trans hmi.symm⟩)
    · rw [markFirstRead, if_neg h] at hn
      rcases List.mem_cons.mp hn with rfl | hn'
      · exfalso
        apply h
        simp [hni, hnr]
      · exact ih hnd.2 n hn' hni hnr

/-! ### Claim theorems: concrete evaluations -/

/-- C1: evaluation of the code at the failing input.  After alice (1) sends
a connection request to bob (2), bob's pending-request list references
alice, but alice's pending-request list also references bob: the controller
stores a mirrored `pending` entry on both sides with no initiator mark, and
`getConnectionRequests` filters on status only, so one's own outgoing
requests do appear — contradicting the claimed directional visibility. -/
theorem c1_own_outgoing_request_listed :
    (sendConnectionRequest db0 [] 1 2 0 0).status = ApiStatus.ok ∧
    getConnectionRequests (sendConnectionRequest db0 [] 1 2 0 0).db 2 =
      some [⟨1, ConnStatus.pending⟩] ∧
    getConnectionRequests (sendConnectionRequest db0 [] 1 2 0 0).db 1 =
      some [⟨2, ConnStatus.pending⟩] := by decide

/-- C3 counterexample: in a state where the entries of users 1 and 2 for
each other are both `accepted` (so not `pending`), `acceptConnection`
succeeds with status ok instead of failing — the source never checks the
entry status, so the claim "fails ... when the connection is already
accepted" is false. -/
theorem c3_accept_succeeds_on_accepted :
    (∀ u ∈ dbAcc, ∀ e ∈ u.connections, e.status = ConnStatus.accepted) ∧
    (acceptConnection dbAcc [] 1 2 0 0).status = ApiStatus.ok := by decide

/-- C4: evaluation of the code at the failing input.  Carol (10) opens two
tabs whose sockets 101 and 102 both authenticate: the `Map`-backed registry
keeps only the second binding.  Dave (20) likes Carol's post: exactly one
ledger entry is appended and one `receiveNotification` emit targets room 10,
but neither of Carol's live sockets is in room 10 (the authenticate handler
never joins a socket to the user-id room), so no session receives the push —
contradicting "both sessions receive a receiveNotification push". -/
theorem c4_two_tabs_receive_nothing :
    authenticate (authenticate [] 10 101) 10 102 = [(10, 102)] ∧
    (likePost dbLike posts0 [] 20 5 7 1 true).status = ApiStatus.ok ∧
    (likePost dbLike posts0 [] 20 5 7 1 true).ledger.length = 1 ∧
    (likePost dbLike posts0 [] 20 5 7 1 true).emits =
      [⟨10, "post-like", "dave liked your post", 20⟩] ∧
    roomSockets [] [101, 102] 10 = [] := by decide

/-- C5 counterexample: when the `Notification.create` write fails after
Dave's like of Carol's post has been saved, the like stays committed (the
post's likes now contain 20) but the controller's catch-all answers 500 —
the caller does not observe the primary action as successful, refuting
"never propagated to the caller". -/
theorem c5_notif_failure_returns_500 :
    (likePost dbLike posts0 [] 20 5 0 0 false).status = ApiStatus.serverError ∧
    (likePost dbLike posts0 [] 20 5 0 0 false).status ≠ ApiStatus.ok ∧
    (likePost dbLike posts0 [] 20 5 0 0 false).posts = [⟨5, 10, [20]⟩] ∧
    (likePost dbLike posts0 [] 20 5 0 0 false).ledger = [] := by decide

/-- C6: evaluation of the code at the failing input.  The spec's type
enumeration contains `group-invite` and its reference kinds contain
`Conversation`, and `createGroupConversation` itself builds exactly such a
notification, but the schema enums in Notification.js list neither value,
so `Notification.create` fails validation instead of succeeding. -/
theorem c6_group_invite_fails_validation :
    "group-invite" ∈ specNotifTypeEnum ∧
    "Conversation" ∈ specReferenceKinds ∧
    (createGroupNotif 1 2 3 "alice" "team").ntype = "group-invite" ∧
    (createGroupNotif 1 2 3 "alice" "team").onModel = some "Conversation" ∧
    notifSchemaValid "group-invite" (some "Conversation") = false ∧
    notifCreate [] (createGroupNotif 1 2 3 "alice" "team") =
      Except.error "ValidationError" :=
  ⟨by decide, by decide, rfl, rfl, by decide, rfl⟩

/-- C7 counterexample: user 20 calling `markAsRead` on notification 1, which
belongs to user 10, receives `notFound` (HTTP 404), not `forbidden`
(HTTP 403), with the ledger unchanged — the filter
`{_id, recipient: req.user.id}` simply fails to match. -/
theorem c7_wrong_user_gets_not_found :
    (markAsRead led0 1 20).1 = ApiStatus.notFound ∧
    (markAsRead led0 1 20).1 ≠ ApiStatus.forbidden ∧
    (markAsRead led0 1 20).2 = led0 := by decide

/-- C8 counterexample: with two notifications for the same user sharing one
`createdAt`, both orders are valid responses of the code's query (which
sorts by `createdAt` alone, with no secondary key), yet the orders differ —
so the returned order is not determined, refuting the claimed stability
under ties. -/
theorem c8_tie_order_not_determined :
    queryResultValid ledTie 10 [nTieA, nTieB] ∧
    queryResultValid ledTie 10 [nTieB, nTieA] ∧
    ([nTieA, nTieB] : List Notif) ≠ [nTieB, nTieA] := by decide

/-- C8 (amended): the list query returns the user's notifications
newest-first by `createdAt`; since no secondary sort key is applied, the
order is deterministic exactly when the selected notifications have
pairwise-distinct `createdAt` values — under that hypothesis any two valid
responses coincide. -/
theorem c8_newest_first_deterministic_when_distinct
    (led : Ledger) (uid : Nat) (res₁ res₂ : List Notif)
    (h₁ : queryResultValid led uid res₁) (h₂ : queryResultValid led uid res₂)
    (hdist : (ledgerFor led uid).Pairwise (fun a b => a.createdAt ≠ b.createdAt)) :
    res₁.Sorted (fun a b => b.createdAt ≤ a.createdAt) ∧ res₁ = res₂ := by
  obtain ⟨hp₁, hs₁⟩ := h₁
  obtain ⟨hp₂, hs₂⟩ := h₂
  refine ⟨hs₁, ?_⟩
  have hd₁ : res₁.Pairwise (fun a b => a.createdAt ≠ b.createdAt) :=
    (List.Perm.pairwise_iff (fun h => Ne.symm h) hp₁).mpr hdist
  have hd₂ : res₂.Pairwise (fun a b => a.createdAt ≠ b.createdAt) :=
    (List.Perm.pairwise_iff (fun h => Ne.symm h) hp₂).mpr hdist
  have hps₁ : res₁.Pairwise (fun a b => b.createdAt ≤ a.createdAt) := hs₁
  have hps₂ : res₂.Pairwise (fun a b => b.createdAt ≤ a.createdAt) := hs₂
  have hstrict₁ : res₁.Sorted (fun a b => b.createdAt < a.createdAt) :=
    (hps₁.and hd₁).imp (fun h => lt_of_le_of_ne h.1 (Ne.symm h.2))
  have hstrict₂ : res₂.Sorted (fun a b => b.createdAt < a.createdAt) :=
    (hps₂.and hd₂).imp (fun h => lt_of_le_of_ne h.1 (Ne.symm h.2))
  haveI : IsAntisymm Notif (fun a b => b.createdAt < a.createdAt) :=
    ⟨fun _ _ h1 h2 => absurd (lt_trans h1 h2) (lt_irrefl _)⟩
  exact List.eq_of_perm_of_sorted (hp₁.trans hp₂.symm) hstrict₁ hstrict₂

/-- C8 witness: the amended theorem applied to a concrete two-element ledger
with distinct timestamps. -/
theorem c8_newest_first_witness :
    resDistinct.Sorted (fun a b : Notif => b.createdAt ≤ a.createdAt) ∧
    resDistinct = resDistinct :=
  c8_newest_first_deterministic_when_distinct ledDistinct 10 resDistinct
    resDistinct (by decide) (by decide) (by decide)

/-- C9: for existing users `a` and `b`, `removeConnection` is idempotent —
the first call answers ok, a second identical call also answers ok and
leaves the database exactly as the first call left it, and after the first
call neither user's accepted-connections list contains an entry for the
other. -/
theorem c9_removeConnection_idempotent (db : DB) (led : Ledger) (a b : Nat)
    (ua ub : UserRec) (ha : findUser db a = some ua) (hb : findUser db b = some ub) :
    (removeConnection db led a b).status = ApiStatus.ok ∧
    (removeConnection (removeConnection db led a b).db led a b).status = ApiStatus.ok ∧
    (removeConnection (removeConnection db led a b).db led a b).db =
      (removeConnection db led a b).db ∧
    (∀ l, getUserConnections (removeConnection db led a b).db a = some l →
      ∀ e ∈ l, e.user ≠ b) ∧
    (∀ l, getUserConnections (removeConnection db led a b).db b = some l →
      ∀ e ∈ l, e.user ≠ a) := by
  have hidua : ua.id = a := findUser_some_id ha
  have hidub : ub.id = b := findUser_some_id hb
  have hr1 : removeConnection db led a b =
      ⟨ApiStatus.ok, db.map (replF (filtU ua b) (filtU ub a)), led, []⟩ :=
    removeConnection_ok ha hb
  have hu2 : findUser (db.map (replF (filtU ua b) (filtU ub a))) a =
      some (replF (filtU ua b) (filtU ub a) ua) := by
    rw [findUser_replF, ha]
    rfl
  have hb2 : findUser (db.map (replF (filtU ua b) (filtU ub a))) b =
      some (filtU ub a) := by
    rw [findUser_replF, hb, Option.map_some']
    exact congrArg some (replF_eval_y rfl)
  have hr2 : removeConnection (db.map (replF (filtU ua b) (filtU ub a))) led a b =
      ⟨ApiStatus.ok, (db.map (replF (filtU ua b) (filtU ub a))).map
        (replF (filtU (replF (filtU ua b) (filtU ub a) ua) b) (filtU (filtU ub a) a)),
       led, []⟩ :=
    removeConnection_ok hu2 hb2
  have hy2 : filtU (filtU ub a) a = filtU ub a := filtU_idem ub a
  have hfix : ∀ w ∈ db.map (replF (filtU ua b) (filtU ub a)),
      replF (filtU (replF (filtU ua b) (filtU ub a) ua) b) (filtU (filtU ub a) a) w
        = w := by
    intro w hw
    obtain ⟨v, hv, rfl⟩ := List.mem_map.mp hw
    by_cases hvb : v.id = b
    · have e1 : replF (filtU ua b) (filtU ub a) v = filtU ub a :=
        replF_eval_y (hvb.trans hidub.symm)
      rw [e1, hy2]
      exact replF_eval_y rfl
    · by_cases hva : v.id = a
      · have hab : a ≠ b := fun h => hvb (hva.trans h)
        have e1 : replF (filtU ua b) (filtU ub a) v = filtU ua b :=
          replF_eval_x (fun h => hvb (h.trans hidub)) (hva.trans hidua.symm)
        have hux : replF (filtU ua b) (filtU ub a) ua = filtU ua b :=
          replF_eval_x (fun h => hab ((hidua.symm.trans h).trans hidub)) rfl
        rw [e1, hux, filtU_idem ua b, hy2]
        exact replF_eval_x (fun h => hab ((hidua.symm.trans h).trans hidub)) rfl
      · have e1 : replF (filtU ua b) (filtU ub a) v = v :=
          replF_eval_other (fun h => hvb (h.trans hidub))
            (fun h => hva (h.trans hidua))
        have hid2 : (filtU (replF (filtU ua b) (filtU ub a) ua) b).id = a := by
          show (replF (filtU ua b) (filtU ub a) ua).id = a
          rw [replF_id]
          exact hidua
        rw [e1]
        exact replF_eval_other (fun h => hvb (h.trans hidub))
          (fun h => hva (h.trans hid2))
  have hdb2 : (db.map (replF (filtU ua b) (filtU ub a))).map
      (replF (filtU (replF (filtU ua b) (filtU ub a) ua) b) (filtU (filtU ub a) a))
        = db.map (replF (filtU ua b) (filtU ub a)) := by
    conv_rhs => rw [← List.map_id (db.map (replF (filtU ua b) (filtU ub a)))]
    exact List.map_congr_left hfix
  refine ⟨by simp only [hr1], by simp only [hr1, hr2], ?_, ?_, ?_⟩
  · simp only [hr1, hr2]
    exact hdb2
  · simp only [hr1]
    intro l hl e he
    unfold getUserConnections at hl
    rw [hu2, Option.map_some'] at hl
    have hl' := Option.some.inj hl
    rw [← hl'] at he
    have hmem := (List.mem_filter.mp he).1
    by_cases hab : a = b
    · have hise : findUser db b = some ua := by rw [← hab]; exact ha
      have huab : ua = ub := Option.some.inj (hise.symm.trans hb)
      have huy : replF (filtU ua b) (filtU ub a) ua = filtU ub a :=
        replF_eval_y ((hidua.trans hab).trans hidub.symm)
      rw [huy] at hmem
      rw [← hab]
      exact mem_filtU_ne hmem
    · have hux : replF (filtU ua b) (filtU ub a) ua = filtU ua b :=
        replF_eval_x (fun h => hab ((hidua.symm.trans h).trans hidub)) rfl
      rw [hux] at hmem
      exact mem_filtU_ne hmem
  · simp only [hr1]
    intro l hl e he
    unfold getUserConnections at hl
    rw [hb2, Option.map_some'] at hl
    have hl' := Option.some.inj hl
    rw [← hl'] at he
    exact mem_filtU_ne (List.mem_filter.mp he).1

/-- C9 witness: the idempotence theorem applied to the concrete accepted
pair of `dbAcc`. -/
theorem c9_witness :
    (removeConnection dbAcc [] 1 2).status = ApiStatus.ok ∧
    (removeConnection (removeConnection dbAcc [] 1 2).db [] 1 2).status = ApiStatus.ok ∧
    (removeConnection (removeConnection dbAcc [] 1 2).db [] 1 2).db =
      (removeConnection dbAcc [] 1 2).db ∧
    (∀ l, getUserConnections (removeConnection dbAcc [] 1 2).db 1 = some l →
      ∀ e ∈ l, e.user ≠ 2) ∧
    (∀ l, getUserConnections (removeConnection dbAcc [] 1 2).db 2 = some l →
      ∀ e ∈ l, e.user ≠ 1) :=
  c9_removeConnection_idempotent dbAcc [] 1 2 ⟨1, "alice", [⟨2, ConnStatus.accepted⟩]⟩
    ⟨2, "bob", [⟨1, ConnStatus.accepted⟩]⟩ (by decide) (by decide)

/-- C7 (amended): with unique notification ids, a user who is not the
recipient of notification `i` gets `notFound` (HTTP 404, not `forbidden`)
and the ledger — in particular the target's `isRead` — is unchanged; the
true recipient's `markAsRead` succeeds and is idempotent: a second call
answers ok, changes nothing further, and the notification stays read. -/
theorem c7_markAsRead_notfound_and_idempotent (led : Ledger) (i u r : Nat)
    (hnd : (led.map Notif.nid).Nodup)
    (hwrong : led.find? (fun n => n.nid == i && n.recipient == u) = none)
    (hown : (led.find? (fun n => n.nid == i && n.recipient == r)).isSome = true) :
    markAsRead led i u = (ApiStatus.notFound, led) ∧
    (markAsRead led i r).1 = ApiStatus.ok ∧
    markAsRead (markAsRead led i r).2 i r = (ApiStatus.ok, (markAsRead led i r).2) ∧
    (∀ n ∈ (markAsRead led i r).2, n.nid = i → n.recipient = r → n.isRead = true) := by
  have h2 : (markAsRead led i r).2 = markFirstRead led i r := by
    simp [markAsRead, hown]
  refine ⟨?_, ?_, ?_, ?_⟩
  · simp [markAsRead, hwrong]
  · simp [markAsRead, hown]
  · rw [h2]
    have hfind : ((markFirstRead led i r).find?
        (fun n => n.nid == i && n.recipient == r)).isSome = true := by
      rw [markFirstRead_find?]
      rcases Option.isSome_iff_exists.mp hown with ⟨n, hn⟩
      rw [hn]
      rfl
    simp [markAsRead, hfind, markFirstRead_idem]
  · rw [h2]
    exact markFirstRead_all_read led i r hnd

/-- C7 witness: the amended theorem at the concrete one-notification ledger
`led0` (recipient 10), with user 20 as the outsider, keeping only the closed
conjuncts. -/
theorem c7_markAsRead_witness :
    markAsRead led0 1 20 = (ApiStatus.notFound, led0) ∧
    (markAsRead led0 1 10).1 = ApiStatus.ok ∧
    markAsRead (markAsRead led0 1 10).2 1 10 =
      (ApiStatus.ok, (markAsRead led0 1 10).2) :=
  have h := c7_markAsRead_notfound_and_idempotent led0 1 20 10 (by decide)
    (by decide) (by decide)
  ⟨h.1, h.2.1, h.2.2.1⟩

/-- C10: the query-level updates `markAsRead` (findOneAndUpdate) and
`markAllAsRead` (updateMany) never touch `readAt` — only the document-save
hook `preSaveHook` sets it; after `markAllAsRead` every notification of the
user is read, and a saved document with `isRead` modified to true does get
`readAt` stamped. -/
theorem c10_query_updates_bypass_readAt (led : Ledger) (i u now : Nat)
    (n m : Notif) (hn : n ∈ markAllAsRead led u) (hr : n.recipient = u)
    (hm : m.isRead = true) :
    (markAsRead led i u).2.map Notif.readAt = led.map Notif.readAt ∧
    (markAllAsRead led u).map Notif.readAt = led.map Notif.readAt ∧
    n.isRead = true ∧
    (preSaveHook m true now).readAt = some now := by
  refine ⟨?_, ?_, ?_, ?_⟩
  · by_cases h : ((led.find? (fun x => x.nid == i && x.recipient == u)).isSome) = true
    · simp [markAsRead, h, markFirstRead_map_readAt]
    · simp [markAsRead, h]
  · unfold markAllAsRead
    rw [List.map_map]
    apply List.map_congr_left
    intro x _
    show Notif.readAt
        (if x.recipient == u && x.isRead == false then { x with isRead := true }
         else x) = x.readAt
    by_cases hc : (x.recipient == u && x.isRead == false) = true
    · rw [if_pos hc]
    · rw [if_neg hc]
  · rcases List.mem_map.mp hn with ⟨x, hx, hxe⟩
    by_cases hc : (x.recipient == u && x.isRead == false) = true
    · rw [← hxe, if_pos hc]
    · rw [← hxe, if_neg hc]
      rw [← hxe, if_neg hc] at hr
      rcases Bool.eq_false_or_eq_true x.isRead with ht | hf
      · exact ht
      · exfalso
        apply hc
        rw [hr, hf]
        simp
  · simp [preSaveHook, hm]

/-- C10 witness: the theorem applied to `led0` and its marked notification. -/
theorem c10_bypass_witness :
    (markAsRead led0 1 10).2.map Notif.readAt = led0.map Notif.readAt ∧
    (markAllAsRead led0 10).map Notif.readAt = led0.map Notif.readAt ∧
    (⟨10, 3, "message", "hi", none, none, true, none, 0, 1⟩ : Notif).isRead = true ∧
    (preSaveHook ⟨10, 3, "message", "hi", none, none, true, none, 0, 1⟩ true 5).readAt
      = some 5 :=
  c10_query_updates_bypass_readAt led0 1 10 5
    ⟨10, 3, "message", "hi", none, none, true, none, 0, 1⟩
    ⟨10, 3, "message", "hi", none, none, true, none, 0, 1⟩
    (by decide) (by decide) (by decide)

/-- C5 (amended): when the notification write fails after the like has been
saved, the committed like is not rolled back, the ledger is untouched and no
realtime emit happens — but the failure is visible to the caller, which
receives a 500 server error instead of a success response. -/
theorem c5_like_commits_but_caller_sees_500
    (db : DB) (posts : List Post) (led : Ledger) (userId postId now nid : Nat)
    (p : Post) (u : UserRec)
    (hp : posts.find? (fun x => x.pid == postId) = some p)
    (hl : p.likes.contains userId = false)
    (howner : (p.user == userId) = false)
    (hu : findUser db userId = some u) :
    likePost db posts led userId postId now nid false =
      ⟨ApiStatus.serverError,
       posts.map (fun q => if q.pid == postId then { p with likes := userId :: p.likes }
         else q),
       led, []⟩ := by
  unfold likePost
  rw [hp]
  simp only [hl, howner, hu, Bool.false_eq_true, if_false, if_neg]

/-- C5 witness: the amended theorem at the concrete state where Dave (20)
likes Carol's post 5 and the notification write fails. -/
theorem c5_commit_witness :
    likePost dbLike posts0 [] 20 5 0 0 false =
      ⟨ApiStatus.serverError,
       posts0.map (fun q => if q.pid == 5 then ⟨5, 10, [20]⟩ else q), [], []⟩ :=
  c5_like_commits_but_caller_sees_500 dbLike posts0 [] 20 5 0 0 ⟨5, 10, []⟩
    ⟨20, "dave", []⟩ (by decide) (by decide) (by decide) (by decide)

theorem find?_setStatusFirst (l : List ConnEntry) (p : Nat) (s : ConnStatus) :
    (setStatusFirst l p s).find? (fun c => c.user == p) =
      (l.find? (fun c => c.user == p)).map (fun e => { e with status := s }) := by
  induction l with
  | nil => rfl
  | cons e rest ih =>
    by_cases h : (e.user == p) = true
    · simp [setStatusFirst, List.find?, h]
    · simp only [setStatusFirst, if_neg h, List.find?, h, ih]

/-- C3 (amended): for distinct existing users, `acceptConnection` succeeds
whenever a connection entry for the other party exists on each side —
regardless of the entries' status, so in particular also when the
connection is already accepted.  On success both sides' entries for the
peer become `accepted`, exactly one `connection-accepted` notification is
appended with the requester as recipient, and exactly one realtime event is
emitted to the requester's room. -/
theorem c3_accept_flips_and_notifies_requester
    (db : DB) (led : Ledger) (a r t i : Nat) (u tu : UserRec)
    (har : a ≠ r)
    (hu : findUser db a = some u) (ht : findUser db r = some tu)
    (h1 : (u.connections.find? (fun c => c.user == r)).isSome = true)
    (h2 : (tu.connections.find? (fun c => c.user == a)).isSome = true) :
    (acceptConnection db led a r t i).status = ApiStatus.ok ∧
    (acceptConnection db led a r t i).ledger = led ++
      [⟨r, a, "connection-accepted", u.name ++ " accepted your connection request",
        some a, some "User", false, none, t, i⟩] ∧
    (acceptConnection db led a r t i).emits =
      [⟨r, "connection-accepted", u.name ++ " accepted your connection request", a⟩] ∧
    (∃ e, findUser (acceptConnection db led a r t i).db a = some (setU u r ConnStatus.accepted) ∧
      (setU u r ConnStatus.accepted).connections.find? (fun c => c.user == r) = some e ∧
      e.status = ConnStatus.accepted) ∧
    (∃ e, findUser (acceptConnection db led a r t i).db r = some (setU tu a ConnStatus.accepted) ∧
      (setU tu a ConnStatus.accepted).connections.find? (fun c => c.user == a) = some e ∧
      e.status = ConnStatus.accepted) := by
  have hidu : u.id = a := findUser_some_id hu
  have hidt : tu.id = r := findUser_some_id ht
  have hrun : acceptConnection db led a r t i =
      ⟨ApiStatus.ok, db.map (replF (setU u r ConnStatus.accepted)
          (setU tu a ConnStatus.accepted)), led ++
        [⟨r, a, "connection-accepted", u.name ++ " accepted your connection request",
          some a, some "User", false, none, t, i⟩],
       [⟨r, "connection-accepted", u.name ++ " accepted your connection request", a⟩]⟩ := by
    have hcond : ((u.connections.find? (fun c => c.user == r)).isSome &&
        (tu.connections.find? (fun c => c.user == a)).isSome) = true := by
      rw [h1, h2]
      rfl
    unfold acceptConnection
    rw [ht, hu]
    dsimp only
    rw [if_pos hcond]
    rw [saveUser_saveUser]
    rfl
  rcases Option.isSome_iff_exists.mp h1 with ⟨e1, he1⟩
  rcases Option.isSome_iff_exists.mp h2 with ⟨e2, he2⟩
  have hfu : findUser (db.map (replF (setU u r ConnStatus.accepted)
      (setU tu a ConnStatus.accepted))) a = some (setU u r ConnStatus.accepted) := by
    rw [findUser_replF, hu, Option.map_some']
    exact congrArg some (replF_eval_x (fun h => har (hidu.symm.trans (h.trans hidt)))
      rfl)
  have hft : findUser (db.map (replF (setU u r ConnStatus.accepted)
      (setU tu a ConnStatus.accepted))) r = some (setU tu a ConnStatus.accepted) := by
    rw [findUser_replF, ht, Option.map_some']
    exact congrArg some (replF_eval_y rfl)
  refine ⟨by rw [hrun], by rw [hrun], by rw [hrun], ?_, ?_⟩
  · refine ⟨{ e1 with status := ConnStatus.accepted }, ?_, ?_, rfl⟩
    · rw [hrun]
      exact hfu
    · show (setStatusFirst u.connections r ConnStatus.accepted).find?
        (fun c => c.user == r) = _
      rw [find?_setStatusFirst, he1, Option.map_some']
  · refine ⟨{ e2 with status := ConnStatus.accepted }, ?_, ?_, rfl⟩
    · rw [hrun]
      exact hft
    · show (setStatusFirst tu.connections a ConnStatus.accepted).find?
        (fun c => c.user == a) = _
      rw [find?_setStatusFirst, he2, Option.map_some']

/-- C3 witness: the amended theorem evaluated on the already-accepted pair
`dbAcc` — acceptance succeeds again and re-flips both entries. -/
theorem c3_accept_witness :
    (acceptConnection dbAcc [] 1 2 0 0).status = ApiStatus.ok ∧
    (acceptConnection dbAcc [] 1 2 0 0).ledger = [] ++
      [⟨2, 1, "connection-accepted", "alice" ++ " accepted your connection request",
        some 1, some "User", false, none, 0, 0⟩] ∧
    (acceptConnection dbAcc [] 1 2 0 0).emits =
      [⟨2, "connection-accepted", "alice" ++ " accepted your connection request", 1⟩] ∧
    (∃ e, findUser (acceptConnection dbAcc [] 1 2 0 0).db 1 =
        some (setU ⟨1, "alice", [⟨2, ConnStatus.accepted⟩]⟩ 2 ConnStatus.accepted) ∧
      (setU ⟨1, "alice", [⟨2, ConnStatus.accepted⟩]⟩ 2 ConnStatus.accepted).connections.find?
        (fun c => c.user == 2) = some e ∧
      e.status = ConnStatus.accepted) ∧
    (∃ e, findUser (acceptConnection dbAcc [] 1 2 0 0).db 2 =
        some (setU ⟨2, "bob", [⟨1, ConnStatus.accepted⟩]⟩ 1 ConnStatus.accepted) ∧
      (setU ⟨2, "bob", [⟨1, ConnStatus.accepted⟩]⟩ 1 ConnStatus.accepted).connections.find?
        (fun c => c.user == 1) = some e ∧
      e.status = ConnStatus.accepted) :=
  c3_accept_flips_and_notifies_requester dbAcc [] 1 2 0 0
    ⟨1, "alice", [⟨2, ConnStatus.accepted⟩]⟩ ⟨2, "bob", [⟨1, ConnStatus.accepted⟩]⟩
    (by decide) (by decide) (by decide) (by decide) (by decide)

theorem setStatusFirst_eq_map (l : List ConnEntry) (p : Nat) (s : ConnStatus)
    (h : (l.map ConnEntry.user).Nodup) :
    setStatusFirst l p s = l.map (fun e => if e.user == p then ⟨p, s⟩ else e) := by
  induction l with
  | nil => rfl
  | cons e rest ih =>
    rw [List.map_cons, List.nodup_cons] at h
    by_cases he : (e.user == p) = true
    · have heq : e.user = p := by simpa using he
      have hrest : rest.map (fun e => if e.user == p then (⟨p, s⟩ : ConnEntry) else e)
          = rest := by
        have : ∀ x ∈ rest, (if x.user == p then (⟨p, s⟩ : ConnEntry) else x) = x := by
          intro x hx
          rw [if_neg]
          simp only [beq_iff_eq]
          intro hxp
          exact h.1 (List.mem_map.mpr ⟨x, hx, hxp.trans heq.symm⟩)
        rw [List.map_congr_left this]
        exact List.map_id' rest
      rw [setStatusFirst, if_pos he, List.map_cons, if_pos he, hrest,
        show ({ e with status := s } : ConnEntry) = ⟨e.user, s⟩ from rfl, heq]
    · rw [setStatusFirst, if_neg he, List.map_cons, if_neg he, ih h.2]

theorem setStatusFirst_map_user (l : List ConnEntry) (p : Nat) (s : ConnStatus) :
    (setStatusFirst l p s).map ConnEntry.user = l.map ConnEntry.user := by
  induction l with
  | nil => rfl
  | cons e rest ih =>
    by_cases he : (e.user == p) = true
    · rw [setStatusFirst, if_pos he]
      rfl
    · rw [setStatusFirst, if_neg he, List.map_cons, List.map_cons, ih]

/-- Rewriting the two documents of a user pair preserves the connection
invariant, provided the new documents keep all entries about third parties,
mirror the pair entry between themselves, introduce no self-entries and no
duplicate peers. -/
theorem replF_preserves_invariant
    (db : DB) (a b : Nat) (ua ub x y : UserRec)
    (hua : findUser db a = some ua) (hub : findUser db b = some ub)
    (hxid : x.id = a) (hyid : y.id = b)
    (hinv : connInvariant db)
    (hx1 : ∀ e ∈ x.connections, (e ∈ ua.connections ∧ e.user ≠ b) ∨
      (e.user = b ∧ a ≠ b ∧ ∃ e' ∈ y.connections, e'.user = a ∧ e'.status = e.status))
    (hy1 : ∀ e ∈ y.connections, (e ∈ ub.connections ∧ e.user ≠ a) ∨
      (e.user = a ∧ a ≠ b ∧ ∃ e' ∈ x.connections, e'.user = b ∧ e'.status = e.status))
    (hx2 : ∀ e ∈ ua.connections, e.user ≠ b → e ∈ x.connections)
    (hy2 : ∀ e ∈ ub.connections, e.user ≠ a → e ∈ y.connections)
    (hxs : ∀ e ∈ x.connections, e.user ≠ a)
    (hys : ∀ e ∈ y.connections, e.user ≠ b)
    (hxn : (x.connections.map ConnEntry.user).Nodup)
    (hyn : (y.connections.map ConnEntry.user).Nodup) :
    connInvariant (db.map (replF x y)) := by
  obtain ⟨hmir, hself, hnd⟩ := hinv
  have hidua : ua.id = a := findUser_some_id hua
  have hidub : ub.id = b := findUser_some_id hub
  have hfb : findUser (db.map (replF x y)) b = some y := by
    rw [findUser_replF, hub, Option.map_some']
    exact congrArg some (replF_eval_y (hidub.trans hyid.symm))
  have hfa : ∀ _ : a ≠ b, findUser (db.map (replF x y)) a = some x := by
    intro hab
    rw [findUser_replF, hua, Option.map_some']
    exact congrArg some
      (replF_eval_x (fun h => hab (hidua.symm.trans (h.trans hyid)))
        (hidua.trans hxid.symm))
  have hfother : ∀ z v, z ≠ a → z ≠ b → findUser db z = some v →
      findUser (db.map (replF x y)) z = some v := by
    intro z v hza hzb hv
    have hidv : v.id = z := findUser_some_id hv
    rw [findUser_replF, hv, Option.map_some']
    exact congrArg some
      (replF_eval_other (fun h => hzb (hidv.symm.trans (h.trans hyid)))
        (fun h => hza (hidv.symm.trans (h.trans hxid))))
  refine ⟨?_, ?_, ?_⟩
  · intro w hw e he
    obtain ⟨v, hv, rfl⟩ := List.mem_map.mp hw
    by_cases hvb : v.id = b
    · have hwy : replF x y v = y := replF_eval_y (hvb.trans hyid.symm)
      rw [hwy] at he
      rw [hwy, hyid]
      rcases hy1 e he with ⟨hel, hnea⟩ | ⟨heq, hab, e', he', heu, hes⟩
      · have hm := hmir ub (findUser_some_mem hub) e hel
        unfold mirrorAt at hm ⊢
        cases hvf : findUser db e.user with
        | none => rw [hvf] at hm; exact hm.elim
        | some v₀ =>
          rw [hvf] at hm
          have hm' : ∃ e' ∈ v₀.connections, e'.user = ub.id ∧ e'.status = e.status := hm
          obtain ⟨e', he', heu, hes⟩ := hm'
          rw [hfother e.user v₀ hnea (hys e he) hvf]
          exact ⟨e', he', heu.trans hidub, hes⟩
      · unfold mirrorAt
        rw [heq, hfa hab]
        exact ⟨e', he', heu, hes⟩
    · by_cases hva : v.id = a
      · have hwx : replF x y v = x :=
          replF_eval_x (fun h => hvb (h.trans hyid)) (hva.trans hxid.symm)
        rw [hwx] at he
        rw [hwx, hxid]
        rcases hx1 e he with ⟨hel, hneb⟩ | ⟨heq, hab, e', he', heu, hes⟩
        · have hm := hmir ua (findUser_some_mem hua) e hel
          unfold mirrorAt at hm ⊢
          cases hvf : findUser db e.user with
          | none => rw [hvf] at hm; exact hm.elim
          | some v₀ =>
            rw [hvf] at hm
            have hm' : ∃ e' ∈ v₀.connections, e'.user = ua.id ∧ e'.status = e.status := hm
            obtain ⟨e', he', heu, hes⟩ := hm'
            rw [hfother e.user v₀ (hxs e he) hneb hvf]
            exact ⟨e', he', heu.trans hidua, hes⟩
        · unfold mirrorAt
          rw [heq, hfb]
          exact ⟨e', he', heu, hes⟩
      · have hwv : replF x y v = v :=
          replF_eval_other (fun h => hvb (h.trans hyid)) (fun h => hva (h.trans hxid))
        rw [hwv] at he
        rw [hwv]
        have hm := hmir v hv e he
        unfold mirrorAt at hm ⊢
        cases hvf : findUser db e.user with
        | none => rw [hvf] at hm; exact hm.elim
        | some v₀ =>
          rw [hvf] at hm
          have hm' : ∃ e' ∈ v₀.connections, e'.user = v.id ∧ e'.status = e.status := hm
          obtain ⟨e', he', heu, hes⟩ := hm'
          by_cases heb : e.user = b
          · have hvub : v₀ = ub := by
              rw [heb] at hvf
              exact Option.some.inj (hvf.symm.trans hub)
            rw [heb, hfb]
            have he'' : e' ∈ y.connections :=
              hy2 e' (hvub ▸ he') (fun h => hva (heu.symm.trans h))
            exact ⟨e', he'', heu, hes⟩
          · by_cases hea : e.user = a
            · have hvua : v₀ = ua := by
                rw [hea] at hvf
                exact Option.some.inj (hvf.symm.trans hua)
              rw [hea, hfa (fun h => heb (hea.trans h))]
              have he'' : e' ∈ x.connections :=
                hx2 e' (hvua ▸ he') (fun h => hvb (heu.symm.trans h))
              exact ⟨e', he'', heu, hes⟩
            · rw [hfother e.user v₀ hea heb hvf]
              exact ⟨e', he', heu, hes⟩
  · intro w hw e he
    obtain ⟨v, hv, rfl⟩ := List.mem_map.mp hw
    by_cases hvb : v.id = b
    · have hwy : replF x y v = y := replF_eval_y (hvb.trans hyid.symm)
      rw [hwy] at he
      rw [hwy, hyid]
      exact hys e he
    · by_cases hva : v.id = a
      · have hwx : replF x y v = x :=
          replF_eval_x (fun h => hvb (h.trans hyid)) (hva.trans hxid.symm)
        rw [hwx] at he
        rw [hwx, hxid]
        exact hxs e he
      · have hwv : replF x y v = v :=
          replF_eval_other (fun h => hvb (h.trans hyid)) (fun h => hva (h.trans hxid))
        rw [hwv] at he
        rw [hwv]
        exact hself v hv e he
  · intro w hw
    obtain ⟨v, hv, rfl⟩ := List.mem_map.mp hw
    by_cases hvb : v.id = b
    · rw [replF_eval_y (hvb.trans hyid.symm)]
      exact hyn
    · by_cases hva : v.id = a
      · rw [replF_eval_x (fun h => hvb (h.trans hyid)) (hva.trans hxid.symm)]
        exact hxn
      · rw [replF_eval_other (fun h => hvb (h.trans hyid)) (fun h => hva (h.trans hxid))]
        exact hnd v hv

theorem removeConnection_preserves (db : DB) (led : Ledger) (a b : Nat)
    (hinv : connInvariant db) : connInvariant (removeConnection db led a b).db := by
  unfold removeConnection
  cases hb : findUser db b with
  | none => exact hinv
  | some ub =>
    cases ha : findUser db a with
    | none => exact hinv
    | some ua =>
      show connInvariant
        (saveUser (saveUser db (filtU ua b)) (filtU ub a))
      rw [saveUser_saveUser]
      have hida : ua.id = a := findUser_some_id ha
      have hidb : ub.id = b := findUser_some_id hb
      refine replF_preserves_invariant db a b ua ub (filtU ua b) (filtU ub a)
        ha hb hida hidb hinv
        ?_ ?_ ?_ ?_ ?_ ?_ ?_ ?_
      · intro e he
        exact Or.inl ⟨(List.mem_filter.mp he).1,
          by simpa using (List.mem_filter.mp he).2⟩
      · intro e he
        exact Or.inl ⟨(List.mem_filter.mp he).1,
          by simpa using (List.mem_filter.mp he).2⟩
      · intro e he hne
        exact List.mem_filter.mpr ⟨he, by simpa using hne⟩
      · intro e he hne
        exact List.mem_filter.mpr ⟨he, by simpa using hne⟩
      · intro e he
        have h := hinv.2.1 ua (findUser_some_mem ha) e (List.mem_filter.mp he).1
        rw [findUser_some_id ha] at h
        exact h
      · intro e he
        have h := hinv.2.1 ub (findUser_some_mem hb) e (List.mem_filter.mp he).1
        rw [findUser_some_id hb] at h
        exact h
      · exact (hinv.2.2 ua (findUser_some_mem ha)).sublist
          (List.Sublist.map _ (List.filter_sublist _))
      · exact (hinv.2.2 ub (findUser_some_mem hb)).sublist
          (List.Sublist.map _ (List.filter_sublist _))

theorem acceptConnection_preserves (db : DB) (led : Ledger) (a b t i : Nat)
    (hinv : connInvariant db) :
    connInvariant (acceptConnection db led a b t i).db := by
  unfold acceptConnection
  cases hb : findUser db b with
  | none => exact hinv
  | some ub =>
    cases ha : findUser db a with
    | none => exact hinv
    | some ua =>
      dsimp only
      by_cases hcond : ((ua.connections.find? (fun c => c.user == b)).isSome &&
          (ub.connections.find? (fun c => c.user == a)).isSome) = true
      · rw [if_pos hcond]
        show connInvariant
          (saveUser (saveUser db (setU ua b ConnStatus.accepted))
            (setU ub a ConnStatus.accepted))
        rw [saveUser_saveUser]
        rw [Bool.and_eq_true] at hcond
        rcases Option.isSome_iff_exists.mp hcond.1 with ⟨e₁, he₁⟩
        rcases Option.isSome_iff_exists.mp hcond.2 with ⟨e₂, he₂⟩
        have he₁m : e₁ ∈ ua.connections := List.mem_of_find?_eq_some he₁
        have he₂m : e₂ ∈ ub.connections := List.mem_of_find?_eq_some he₂
        have he₁u : e₁.user = b := by simpa using List.find?_some he₁
        have he₂u : e₂.user = a := by simpa using List.find?_some he₂
        have hab : a ≠ b := by
          intro h
        -- with a = b, ua would hold the entry e₁ for itself
          exact hinv.2.1 ua (findUser_some_mem ha) e₁ he₁m
            (he₁u.trans (h.symm.trans (findUser_some_id ha).symm))
        have hndua : (ua.connections.map ConnEntry.user).Nodup :=
          hinv.2.2 ua (findUser_some_mem ha)
        have hndub : (ub.connections.map ConnEntry.user).Nodup :=
          hinv.2.2 ub (findUser_some_mem hb)
        have hxc : (setU ua b ConnStatus.accepted).connections =
            ua.connections.map
              (fun e => if e.user == b then ⟨b, ConnStatus.accepted⟩ else e) :=
          setStatusFirst_eq_map ua.connections b ConnStatus.accepted hndua
        have hyc : (setU ub a ConnStatus.accepted).connections =
            ub.connections.map
              (fun e => if e.user == a then ⟨a, ConnStatus.accepted⟩ else e) :=
          setStatusFirst_eq_map ub.connections a ConnStatus.accepted hndub
        have hida : ua.id = a := findUser_some_id ha
        have hidb : ub.id = b := findUser_some_id hb
        refine replF_preserves_invariant db a b ua ub
          (setU ua b ConnStatus.accepted) (setU ub a ConnStatus.accepted)
          ha hb hida hidb
          ⟨hinv.1, hinv.2.1, hinv.2.2⟩ ?_ ?_ ?_ ?_ ?_ ?_ ?_ ?_
        · intro e he
          rw [hxc] at he
          obtain ⟨e₀, he₀, rfl⟩ := List.mem_map.mp he
          by_cases hb0 : (e₀.user == b) = true
          · right
            rw [if_pos hb0]
            refine ⟨rfl, hab, ⟨a, ConnStatus.accepted⟩, ?_, rfl, rfl⟩
            rw [hyc]
            refine List.mem_map.mpr ⟨e₂, he₂m, ?_⟩
            rw [if_pos (by simpa using he₂u)]
          · left
            rw [if_neg hb0]
            exact ⟨he₀, by simpa using hb0⟩
        · intro e he
          rw [hyc] at he
          obtain ⟨e₀, he₀, rfl⟩ := List.mem_map.mp he
          by_cases ha0 : (e₀.user == a) = true
          · right
            rw [if_pos ha0]
            refine ⟨rfl, hab, ⟨b, ConnStatus.accepted⟩, ?_, rfl, rfl⟩
            rw [hxc]
            refine List.mem_map.mpr ⟨e₁, he₁m, ?_⟩
            rw [if_pos (by simpa using he₁u)]
          · left
            rw [if_neg ha0]
            exact ⟨he₀, by simpa using ha0⟩
        · intro e he hne
          rw [hxc]
          refine List.mem_map.mpr ⟨e, he, ?_⟩
          rw [if_neg (by simpa using hne)]
        · intro e he hne
          rw [hyc]
          refine List.mem_map.mpr ⟨e, he, ?_⟩
          rw [if_neg (by simpa using hne)]
        · intro e he
          rw [hxc] at he
          obtain ⟨e₀, he₀, rfl⟩ := List.mem_map.mp he
          by_cases hb0 : (e₀.user == b) = true
          · rw [if_pos hb0]
            exact fun h => hab h.symm
          · rw [if_neg hb0]
            have h := hinv.2.1 ua (findUser_some_mem ha) e₀ he₀
            rw [findUser_some_id ha] at h
            exact h
        · intro e he
          rw [hyc] at he
          obtain ⟨e₀, he₀, rfl⟩ := List.mem_map.mp he
          by_cases ha0 : (e₀.user == a) = true
          · rw [if_pos ha0]
            exact hab
          · rw [if_neg ha0]
            have h := hinv.2.1 ub (findUser_some_mem hb) e₀ he₀
            rw [findUser_some_id hb] at h
            exact h
        · show ((setStatusFirst ua.connections b ConnStatus.accepted).map
            ConnEntry.user).Nodup
          rw [setStatusFirst_map_user]
          exact hndua
        · show ((setStatusFirst ub.connections a ConnStatus.accepted).map
            ConnEntry.user).Nodup
          rw [setStatusFirst_map_user]
          exact hndub
      · rw [if_neg hcond]
        exact hinv

theorem sendConnectionRequest_preserves (db : DB) (led : Ledger) (a b t i : Nat)
    (hinv : connInvariant db) :
    connInvariant (sendConnectionRequest db led a b t i).db := by
  unfold sendConnectionRequest
  by_cases hab : (a == b) = true
  · rw [if_pos hab]
    exact hinv
  · rw [if_neg hab]
    have habne : a ≠ b := by simpa using hab
    cases hb : findUser db b with
    | none => exact hinv
    | some ub =>
      cases ha : findUser db a with
      | none => exact hinv
      | some ua =>
        dsimp only
        by_cases hex : ((ua.connections.find? (fun c => c.user == b)).isSome) = true
        · rw [if_pos hex]
          exact hinv
        · rw [if_neg hex]
          show connInvariant
            (saveUser (saveUser db (pushU ua b ConnStatus.pending))
              (pushU ub a ConnStatus.pending))
          rw [saveUser_saveUser]
          have hnone : ua.connections.find? (fun c => c.user == b) = none := by
            cases hopt : ua.connections.find? (fun c => c.user == b) with
            | none => rfl
            | some e =>
              exact absurd (by rw [hopt]; rfl) hex
          have hnc : ∀ e ∈ ua.connections, e.user ≠ b := by
            intro e he
            have h := List.find?_eq_none.mp hnone e he
            simpa using h
          have hnb : ∀ e ∈ ub.connections, e.user ≠ a := by
            intro e he heq
            have hm := hinv.1 ub (findUser_some_mem hb) e he
            unfold mirrorAt at hm
            rw [heq, ha] at hm
            have hm' : ∃ e' ∈ ua.connections, e'.user = ub.id ∧
                e'.status = e.status := hm
            obtain ⟨e', he', heu, _⟩ := hm'
            exact hnc e' he' (heu.trans (findUser_some_id hb))
          have hida : ua.id = a := findUser_some_id ha
          have hidb : ub.id = b := findUser_some_id hb
          refine replF_preserves_invariant db a b ua ub
            (pushU ua b ConnStatus.pending) (pushU ub a ConnStatus.pending)
            ha hb hida hidb hinv
            ?_ ?_ ?_ ?_ ?_ ?_ ?_ ?_
          · intro e he
            rcases List.mem_cons.mp he with rfl | he'
            · exact Or.inr ⟨rfl, habne,
                ⟨a, ConnStatus.pending⟩, List.mem_cons_self _ _, rfl, rfl⟩
            · exact Or.inl ⟨he', hnc e he'⟩
          · intro e he
            rcases List.mem_cons.mp he with rfl | he'
            · exact Or.inr ⟨rfl, habne,
                ⟨b, ConnStatus.pending⟩, List.mem_cons_self _ _, rfl, rfl⟩
            · exact Or.inl ⟨he', hnb e he'⟩
          · intro e he _
            exact List.mem_cons_of_mem _ he
          · intro e he _
            exact List.mem_cons_of_mem _ he
          · intro e he
            rcases List.mem_cons.mp he with rfl | he'
            · exact fun h => habne h.symm
            · have h := hinv.2.1 ua (findUser_some_mem ha) e he'
              rw [findUser_some_id ha] at h
              exact h
          · intro e he
            rcases List.mem_cons.mp he with rfl | he'
            · exact habne
            · have h := hinv.2.1 ub (findUser_some_mem hb) e he'
              rw [findUser_some_id hb] at h
              exact h
          · show ((⟨b, ConnStatus.pending⟩ :: ua.connections).map
              ConnEntry.user).Nodup
            rw [List.map_cons, List.nodup_cons]
            refine ⟨?_, hinv.2.2 ua (findUser_some_mem ha)⟩
            intro hmem
            obtain ⟨e₀, he₀, heq⟩ := List.mem_map.mp hmem
            exact hnc e₀ he₀ heq
          · show ((⟨a, ConnStatus.pending⟩ :: ub.connections).map
              ConnEntry.user).Nodup
            rw [List.map_cons, List.nodup_cons]
            refine ⟨?_, hinv.2.2 ub (findUser_some_mem hb)⟩
            intro hmem
            obtain ⟨e₀, he₀, heq⟩ := List.mem_map.mp hmem
            exact hnb e₀ he₀ heq

/-- C2: each Social Graph operation — sendRequest, acceptRequest and
removeConnection, at arbitrary arguments — maps a database satisfying the
connection invariant (mirrored entries with equal status, no
self-connections, at most one entry per peer) to a database satisfying it
again. -/
theorem c2_connection_invariant_preserved (db : DB) (led : Ledger)
    (a b t i : Nat) (h : connInvariant db) :
    connInvariant (sendConnectionRequest db led a b t i).db ∧
    connInvariant (acceptConnection db led a b t i).db ∧
    connInvariant (removeConnection db led a b).db :=
  ⟨sendConnectionRequest_preserves db led a b t i h,
   acceptConnection_preserves db led a b t i h,
   removeConnection_preserves db led a b h⟩

/-- C2 witness: the preservation theorem applied to the concrete two-user
state `db0`, whose invariant is checked by evaluation. -/
theorem c2_invariant_witness :
    connInvariant (sendConnectionRequest db0 [] 1 2 0 0).db ∧
    connInvariant (acceptConnection db0 [] 1 2 0 0).db ∧
    connInvariant (removeConnection db0 [] 1 2).db :=
  c2_connection_invariant_preserved db0 [] 1 2 0 0 (by decide)

end ConnectPro
